import Mathlib

/-!
Verification of the repeater directory search engine of `aprs-assistant`
(`src/aprs_assistant/_repeaters.py`), checked against its natural-language
specification.

The embedding models:
* the SQLite `Repeaters` table as a list of `Row` values, and the presence of
  the database file as an `Option` around that list (`none` = no database);
* Python floats as real numbers;
* the third-party `haversine` library (`haversine`, `inverse_haversine`,
  `Direction`, `Unit.KILOMETERS`) from its published formulas: spherical
  Earth of mean radius 6371.0088 km, with no longitude normalization in
  `inverse_haversine`;
* SQLite `LIKE` (used for the callsign query `callsign LIKE ? || '%'`) with
  its ASCII case folding and `%` / `_` wildcards;
* the fragment of Python `re.search` exercised by the mode patterns of this
  module (`^`, `$`, literals, `\`-escapes, and single-character `?`).
-/

namespace Aprs

/-! ## ASCII case folding and SQLite LIKE -/

/-- ASCII lower-casing of one character, as SQLite's `LIKE` applies to both
pattern and text (case folding only for A-Z). -/
def lowerAscii (c : Char) : Char :=
  if 'A' ≤ c ∧ c ≤ 'Z' then Char.ofNat (c.toNat + 32) else c

/-- All suffixes of a list, longest first (including the empty suffix). -/
def tailsOf : List Char → List (List Char)
  | [] => [[]]
  | c :: s => (c :: s) :: tailsOf s

/-- SQLite `LIKE` pattern matching: `%` matches any (possibly empty) run of
characters, `_` matches exactly one character, and every other pattern
character matches case-insensitively (ASCII folding). The whole string must
be consumed. -/
def likeMatch : List Char → List Char → Bool
  | [], s => s.isEmpty
  | p :: ps, s =>
    if p = '%' then (tailsOf s).any (fun t => likeMatch ps t)
    else if p = '_' then
      match s with
      | [] => false
      | _ :: s' => likeMatch ps s'
    else
      match s with
      | [] => false
      | c :: s' => (lowerAscii p == lowerAscii c) && likeMatch ps s'

/-- SQLite `LIKE` on strings. -/
def sqlLike (pat s : String) : Bool :=
  likeMatch pat.data s.data

/-! ## The fragment of Python regular expressions used for mode matching

The module's mode patterns (`^FM$`, `DMR`, `YSF`, `D\-?STAR`, and the
caller-supplied strings the claims exercise) only use literal characters,
`\`-escapes, the `^` and `$` anchors, and `?` on a single character. -/

/-- One token of a parsed pattern. -/
inductive RTok where
  | bol
  | eol
  | lit (c : Char)
  | opt (c : Char)
deriving DecidableEq, Repr

/-- Parse a pattern string into tokens: `^` and `$` are anchors, `\c` is the
literal `c`, and a trailing `?` makes the preceding (possibly escaped)
character optional. -/
def parseToks : List Char → List RTok
  | [] => []
  | '^' :: rest => RTok.bol :: parseToks rest
  | '$' :: rest => RTok.eol :: parseToks rest
  | '\\' :: c :: '?' :: rest => RTok.opt c :: parseToks rest
  | '\\' :: c :: rest => RTok.lit c :: parseToks rest
  | c :: '?' :: rest => RTok.opt c :: parseToks rest
  | c :: rest => RTok.lit c :: parseToks rest

/-- Match a token list against the text starting at the current position;
trailing text is allowed (as in `re.search`).  `$` matches at the end of the
text or just before a single trailing newline; a `^` that is not handled at
the start of the search never matches. -/
def matchToks : List RTok → List Char → Bool
  | [], _ => true
  | RTok.bol :: _, _ => false
  | RTok.eol :: ps, s => (s == [] || s == ['\n']) && matchToks ps s
  | RTok.lit c :: ps, s =>
    match s with
    | [] => false
    | d :: s' => (c == d) && matchToks ps s'
  | RTok.opt c :: ps, s =>
    match s with
    | [] => matchToks ps []
    | d :: s' => ((c == d) && matchToks ps s') || matchToks ps (d :: s')

/-- Python `re.search`: the pattern may match at any position of the text,
except that a leading `^` anchors it to the start. -/
def reSearch (pat s : String) : Bool :=
  match parseToks pat.data with
  | RTok.bol :: toks => matchToks toks s.data
  | toks => (tailsOf s.data).any (fun t => matchToks toks t)

/-! ## Band ranges

In Python, `bands` is an arbitrarily nested list structure whose non-list
elements are `(low, high)` frequency tuples in MHz; `_flatten_bands`
recurses into lists and appends the tuples in order. -/

/-- The nested band argument: a `(low, high)` MHz tuple, or a list of nested
band structures. -/
inductive BandTree where
  | pair (lo hi : ℝ)
  | list (elems : List BandTree)

/-- `_flatten_bands`: collect the `(low, high)` tuples of a nested band
structure, left to right. -/
def flattenB : BandTree → List (ℝ × ℝ)
  | BandTree.pair lo hi => [(lo, hi)]
  | BandTree.list [] => []
  | BandTree.list (e :: es) => flattenB e ++ flattenB (BandTree.list es)

/-! ## Repeater records -/

/-- One row of the SQLite `Repeaters` table, in column order. -/
structure Row where
  id : Int
  callsign : String
  latitude : ℝ
  longitude : ℝ
  city : String
  category : String
  internet_node : String
  mode : String
  encode : String
  decode : String
  frequency : Int
  offset : Int
  description : String
  power : String
  operational : Bool
  restriction : String

/-- The `Repeater` named tuple built for each returned row: the sixteen table
columns plus the `distance` field added by the search functions (`none` when
no origin is available). -/
structure Repeater extends Row where
  distance : Option ℝ

/-- Build a `Repeater` from a table row and an optional distance. -/
def mkRep (r : Row) (d : Option ℝ) : Repeater := { r with distance := d }

/-- The modes argument: `None`, a single pattern string, or a list of
pattern strings. -/
inductive ModesArg where
  | one (s : String)
  | many (l : List String)

/-- A single string value for `modes` is wrapped into a one-element list. -/
def modesList : ModesArg → List String
  | ModesArg.one s => [s]
  | ModesArg.many l => l

/-- The mode check of both search loops: with no modes filter every record
passes; otherwise some pattern must `re.search`-match the record's mode. -/
def modePass (ms : Option (List String)) (m : String) : Bool :=
  match ms with
  | none => true
  | some pats => pats.any (fun p => reSearch p m)

/-- The band check of both search loops: with no bands filter every record
passes; otherwise the frequency (in Hz) must lie in some flattened band,
whose bounds are converted MHz → Hz by multiplying by 1000000. -/
noncomputable def bandPass (fb : Option (List (ℝ × ℝ))) (freq : Int) : Bool :=
  match fb with
  | none => true
  | some bs =>
    bs.any (fun b => decide (b.1 * 1000000 ≤ (freq : ℝ)) && decide ((freq : ℝ) ≤ b.2 * 1000000))

/-! ## Spherical geometry (the `haversine` PyPI library)

Modelled from the library's published implementation: mean Earth radius
6371.0088 km, `Direction` bearings NORTH = 0, EAST = pi/2, SOUTH = pi,
WEST = 3*pi/2, and the kernels below.  `inverse_haversine` performs no
longitude normalization and clamps nothing. -/

/-- `_AVG_EARTH_RADIUS_KM` of the `haversine` library. -/
noncomputable def earthRadiusKm : ℝ := 6371.0088

/-- `math.radians`. -/
noncomputable def radians (deg : ℝ) : ℝ := deg * Real.pi / 180

/-- `math.degrees`. -/
noncomputable def degrees (rad : ℝ) : ℝ := rad * 180 / Real.pi

/-- `math.atan2` for real arguments. -/
noncomputable def atan2 (y x : ℝ) : ℝ :=
  if 0 < x then Real.arctan (y / x)
  else if x = 0 then
    (if 0 < y then Real.pi / 2 else if y < 0 then -(Real.pi / 2) else 0)
  else if 0 ≤ y then Real.arctan (y / x) + Real.pi
  else Real.arctan (y / x) - Real.pi

/-- `Direction.NORTH`. -/
noncomputable def dirNorth : ℝ := 0
/-- `Direction.EAST`. -/
noncomputable def dirEast : ℝ := Real.pi / 2
/-- `Direction.SOUTH`. -/
noncomputable def dirSouth : ℝ := Real.pi
/-- `Direction.WEST`. -/
noncomputable def dirWest : ℝ := 3 * Real.pi / 2

/-- `haversine(point1, point2, unit=Unit.KILOMETERS)`: great-circle distance
on a sphere of radius `earthRadiusKm`, inputs in degrees. -/
noncomputable def haversineKm (p1 p2 : ℝ × ℝ) : ℝ :=
  let lat1 := radians p1.1
  let lng1 := radians p1.2
  let lat2 := radians p2.1
  let lng2 := radians p2.2
  let d := Real.sin ((lat2 - lat1) / 2) ^ 2 +
    Real.cos lat1 * Real.cos lat2 * Real.sin ((lng2 - lng1) / 2) ^ 2
  2 * earthRadiusKm * Real.arcsin (Real.sqrt d)

/-- `inverse_haversine(point, distance, direction, unit=Unit.KILOMETERS)`:
destination point after travelling `d` km from `p` at initial bearing
`brng`, in degrees.  The returned longitude is `lng + atan2(...)` with no
wrap-around to `[-180, 180]`. -/
noncomputable def inverse_haversine (p : ℝ × ℝ) (d : ℝ) (brng : ℝ) : ℝ × ℝ :=
  let lat := radians p.1
  let lng := radians p.2
  let r := earthRadiusKm
  let return_lat := Real.arcsin
    (Real.sin lat * Real.cos (d / r) + Real.cos lat * Real.sin (d / r) * Real.cos brng)
  let return_lng := lng + atan2
    (Real.sin brng * Real.sin (d / r) * Real.cos lat)
    (Real.cos (d / r) - Real.sin lat * Real.sin return_lat)
  (degrees return_lat, degrees return_lng)

/-! ## search_repeaters_by_location -/

/-- The query box of `search_repeaters_by_location`, as
`(south, north, west, east)`: one `inverse_haversine` hop in each cardinal
direction, then the degenerate-box fallbacks (`south > north` opens latitude
to `[-90, 90]`; `west > east` opens longitude to `[-180, 180]`). -/
noncomputable def boxBounds (lat lon max_distance : ℝ) : ℝ × ℝ × ℝ × ℝ :=
  let origin := (lat, lon)
  let north0 := (inverse_haversine origin max_distance dirNorth).1
  let south0 := (inverse_haversine origin max_distance dirSouth).1
  let east0 := (inverse_haversine origin max_distance dirEast).2
  let west0 := (inverse_haversine origin max_distance dirWest).2
  let south := if south0 > north0 then -90 else south0
  let north := if south0 > north0 then 90 else north0
  let west := if west0 > east0 then -180 else west0
  let east := if west0 > east0 then 180 else east0
  (south, north, west, east)

/-- The SQL `WHERE (latitude BETWEEN south AND north) AND (longitude BETWEEN
west AND east)` filter. -/
noncomputable def inBox (b : ℝ × ℝ × ℝ × ℝ) (r : Row) : Bool :=
  decide (b.1 ≤ r.latitude) && decide (r.latitude ≤ b.2.1) &&
    decide (b.2.2.1 ≤ r.longitude) && decide (r.longitude ≤ b.2.2.2)

/-- The per-record checks of the location-search loop: the exact haversine
distance must not exceed `max_distance`, then the mode and band filters. -/
noncomputable def locPass (origin : ℝ × ℝ) (max_distance : ℝ)
    (ms : Option (List String)) (fb : Option (List (ℝ × ℝ))) (r : Row) : Bool :=
  let d := haversineKm origin (r.latitude, r.longitude)
  !decide (d > max_distance) && modePass ms r.mode && bandPass fb r.frequency

/-- The surviving candidates of the location search, in database (input)
order, each annotated with its exact haversine distance. -/
noncomputable def locCandidates (rows : List Row) (lat lon max_distance : ℝ)
    (modes : Option ModesArg) (bands : Option BandTree) : List Repeater :=
  let ms := modes.map modesList
  let fb := bands.map flattenB
  let origin := (lat, lon)
  let b := boxBounds lat lon max_distance
  ((rows.filter (inBox b)).filter (locPass origin max_distance ms fb)).map
    (fun r => mkRep r (some (haversineKm origin (r.latitude, r.longitude))))

/-- Sort key used by both searches: `key=lambda x: x.distance` (the distance
is always populated on the paths that sort). -/
noncomputable def distLe (a b : Repeater) : Bool :=
  decide (a.distance.getD 0 ≤ b.distance.getD 0)

/-- `search_repeaters_by_location(lat, lon, max_distance=80, modes, bands)`.
`db = none` models a missing database file (the function returns Python
`None`); otherwise the candidates inside the query box are filtered and
sorted ascending by exact distance (Python's stable `list.sort`). -/
noncomputable def search_repeaters_by_location (db : Option (List Row))
    (lat lon : ℝ) (max_distance : ℝ := 80)
    (modes : Option ModesArg := none) (bands : Option BandTree := none) :
    Option (List Repeater) :=
  match db with
  | none => none
  | some rows =>
    some ((locCandidates rows lat lon max_distance modes bands).mergeSort distLe)

/-! ## search_repeaters_by_callsign -/

/-- The SQL `WHERE callsign LIKE ? || '%'` filter. -/
def likeCallsign (cs : String) (r : Row) : Bool :=
  sqlLike (cs ++ "%") r.callsign

/-- The origin used by the callsign search: formed only when both `lat` and
`lon` are supplied (`if lat is not None and lon is not None`). -/
def originOf (lat lon : Option ℝ) : Option (ℝ × ℝ) :=
  match lat, lon with
  | some la, some lo => some (la, lo)
  | _, _ => none

/-- The surviving candidates of the callsign search, in database (input)
order; the distance is populated only when an origin is available. -/
noncomputable def csCandidates (rows : List Row) (cs : String)
    (origin : Option (ℝ × ℝ)) (modes : Option ModesArg) (bands : Option BandTree) :
    List Repeater :=
  let ms := modes.map modesList
  let fb := bands.map flattenB
  ((rows.filter (likeCallsign cs)).filter
      (fun r => modePass ms r.mode && bandPass fb r.frequency)).map
    (fun r => mkRep r (origin.map (fun o => haversineKm o (r.latitude, r.longitude))))

/-- `search_repeaters_by_callsign(callsign, lat=None, lon=None, modes, bands)`.
An origin is formed only when both `lat` and `lon` are supplied; the results
are sorted by distance only in that case, and are returned in database order
otherwise. -/
noncomputable def search_repeaters_by_callsign (db : Option (List Row))
    (cs : String) (lat lon : Option ℝ := none)
    (modes : Option ModesArg := none) (bands : Option BandTree := none) :
    Option (List Repeater) :=
  match db with
  | none => none
  | some rows =>
    let origin : Option (ℝ × ℝ) :=
      match lat, lon with
      | some la, some lo => some (la, lo)
      | _, _ => none
    let cands := csCandidates rows cs origin modes bands
    match origin with
    | some _ => some (cands.mergeSort distLe)
    | none => some cands

/-! ## Dynamic-typing wrapper for location search

Python's `search_repeaters_by_location(lat, lon, ...)` does not validate its
coordinates.  If the database file is missing it returns `None` before
touching them; otherwise the first use of the origin is
`inverse_haversine((lat, lon), ...)`, whose `math.radians` call raises
`TypeError` when a coordinate is `None`. -/

/-- The Python errors this module can surface. -/
inductive PyErr where
  | typeError
deriving DecidableEq, Repr

/-- `search_repeaters_by_location` as called with possibly-missing
coordinates: the database check comes first, then band flattening and mode
normalization (which cannot fail), then the origin's first use raises
`TypeError` if either coordinate is `None`. -/
noncomputable def search_by_location_py (db : Option (List Row))
    (lat lon : Option ℝ) (max_distance : ℝ := 80)
    (modes : Option ModesArg := none) (bands : Option BandTree := none) :
    Except PyErr (Option (List Repeater)) :=
  match db with
  | none => Except.ok none
  | some rows =>
    match lat, lon with
    | some la, some lo =>
      Except.ok (search_repeaters_by_location (some rows) la lo max_distance modes bands)
    | _, _ => Except.error PyErr.typeError

/-! ## Spec-worded matching predicate (for comparison with the code)

The specification describes the callsign lookup as a case-insensitive
*literal* prefix match with "no regex or wildcard interpretation"; this
predicate follows those words, to be compared against the `LIKE`-based
selection actually performed. -/

/-- Modelled from the spec: `s` starts with `pfx` under case-insensitive
literal prefix matching (no wildcard interpretation of `pfx`). -/
def specPrefixMatchCI (pfx s : String) : Bool :=
  (s.data.map lowerAscii).take pfx.data.length == pfx.data.map lowerAscii

/-! ## Concrete dataset rows used as test fixtures -/

/-- A baseline dataset row: a 2m FM repeater at the origin. -/
noncomputable def baseRow : Row :=
  { id := 1, callsign := "KK7CMT", latitude := 0, longitude := 0, city := "",
    category := "", internet_node := "", mode := "FM", encode := "",
    decode := "", frequency := 146000000, offset := -600000, description := "",
    power := "", operational := true, restriction := "" }

/-- A row just across the antimeridian from `(65.0, 179.9)`. -/
noncomputable def rowAnti : Row := { baseRow with latitude := 65.0, longitude := -179.95 }

/-- A row near the north pole, across it from `(89.9, 10.0)`. -/
noncomputable def rowPole : Row := { baseRow with latitude := 89.95, longitude := -170.0 }

/-- A row whose callsign is matched by the wildcard-bearing prefix `K%`. -/
noncomputable def rowKAB : Row := { baseRow with callsign := "KAB" }

/-- A row away from the origin, for distance-annotation tests. -/
noncomputable def rowFar : Row := { baseRow with latitude := 1, longitude := 2 }

/-! # Helper lemmas -/

theorem earthRadiusKm_pos : (0 : ℝ) < earthRadiusKm := by norm_num [earthRadiusKm]

theorem degrees_le_degrees_iff {a b : ℝ} : degrees a ≤ degrees b ↔ a ≤ b := by
  unfold degrees
  rw [div_le_div_iff_of_pos_right Real.pi_pos, mul_le_mul_right (by norm_num : (0:ℝ) < 180)]

theorem degrees_lt_degrees_iff {a b : ℝ} : degrees a < degrees b ↔ a < b := by
  unfold degrees
  rw [div_lt_div_iff_of_pos_right Real.pi_pos, mul_lt_mul_right (by norm_num : (0:ℝ) < 180)]

theorem degrees_add (a b : ℝ) : degrees (a + b) = degrees a + degrees b := by
  unfold degrees; ring

theorem degrees_sub (a b : ℝ) : degrees (a - b) = degrees a - degrees b := by
  unfold degrees; ring

theorem degrees_zero : degrees 0 = 0 := by unfold degrees; ring

theorem degrees_radians (a : ℝ) : degrees (radians a) = a := by
  unfold degrees radians
  field_simp

theorem degrees_pi_div_two : degrees (Real.pi / 2) = 90 := by
  unfold degrees
  field_simp
  ring

theorem sin_three_pi_div_two : Real.sin (3 * Real.pi / 2) = -1 := by
  have h : 3 * Real.pi / 2 = Real.pi + Real.pi / 2 := by ring
  rw [h, Real.sin_add, Real.sin_pi, Real.cos_pi, Real.cos_pi_div_two, Real.sin_pi_div_two]
  ring

theorem cos_three_pi_div_two : Real.cos (3 * Real.pi / 2) = 0 := by
  have h : 3 * Real.pi / 2 = Real.pi + Real.pi / 2 := by ring
  rw [h, Real.cos_add, Real.sin_pi, Real.cos_pi, Real.cos_pi_div_two, Real.sin_pi_div_two]
  ring

theorem atan2_of_pos_x (y x : ℝ) (hx : 0 < x) : atan2 y x = Real.arctan (y / x) := by
  unfold atan2
  rw [if_pos hx]

theorem inv_hav_north_fst (la lo d : ℝ) :
    (inverse_haversine (la, lo) d dirNorth).1 =
      degrees (Real.arcsin (Real.sin (radians la + d / earthRadiusKm))) := by
  unfold inverse_haversine dirNorth
  simp only [Real.cos_zero, mul_one, ← Real.sin_add]

theorem inv_hav_south_fst (la lo d : ℝ) :
    (inverse_haversine (la, lo) d dirSouth).1 =
      degrees (Real.arcsin (Real.sin (radians la - d / earthRadiusKm))) := by
  unfold inverse_haversine dirSouth
  simp only [Real.cos_pi, mul_neg_one, ← sub_eq_add_neg, ← Real.sin_sub]

theorem inv_hav_east_snd (la lo d : ℝ) :
    (inverse_haversine (la, lo) d dirEast).2 =
      degrees (radians lo +
        atan2 (Real.sin (d / earthRadiusKm) * Real.cos (radians la))
          (Real.cos (d / earthRadiusKm) * Real.cos (radians la) ^ 2)) := by
  unfold inverse_haversine dirEast
  have hb1 : (-1 : ℝ) ≤ Real.sin (radians la) * Real.cos (d / earthRadiusKm) := by
    nlinarith [Real.sin_le_one (radians la), Real.neg_one_le_sin (radians la),
      Real.cos_le_one (d / earthRadiusKm), Real.neg_one_le_cos (d / earthRadiusKm)]
  have hb2 : Real.sin (radians la) * Real.cos (d / earthRadiusKm) ≤ 1 := by
    nlinarith [Real.sin_le_one (radians la), Real.neg_one_le_sin (radians la),
      Real.cos_le_one (d / earthRadiusKm), Real.neg_one_le_cos (d / earthRadiusKm)]
  have hsc : Real.sin (radians la) ^ 2 + Real.cos (radians la) ^ 2 = 1 :=
    Real.sin_sq_add_cos_sq (radians la)
  simp only [Real.cos_pi_div_two, Real.sin_pi_div_two, mul_zero, add_zero, one_mul]
  rw [Real.sin_arcsin hb1 hb2]
  have ey : Real.cos (d / earthRadiusKm) -
      Real.sin (radians la) * (Real.sin (radians la) * Real.cos (d / earthRadiusKm)) =
      Real.cos (d / earthRadiusKm) * Real.cos (radians la) ^ 2 := by
    linear_combination (-(Real.cos (d / earthRadiusKm))) * hsc
  rw [ey]

theorem inv_hav_west_snd (la lo d : ℝ) :
    (inverse_haversine (la, lo) d dirWest).2 =
      degrees (radians lo +
        atan2 (-(Real.sin (d / earthRadiusKm) * Real.cos (radians la)))
          (Real.cos (d / earthRadiusKm) * Real.cos (radians la) ^ 2)) := by
  unfold inverse_haversine dirWest
  have hb1 : (-1 : ℝ) ≤ Real.sin (radians la) * Real.cos (d / earthRadiusKm) := by
    nlinarith [Real.sin_le_one (radians la), Real.neg_one_le_sin (radians la),
      Real.cos_le_one (d / earthRadiusKm), Real.neg_one_le_cos (d / earthRadiusKm)]
  have hb2 : Real.sin (radians la) * Real.cos (d / earthRadiusKm) ≤ 1 := by
    nlinarith [Real.sin_le_one (radians la), Real.neg_one_le_sin (radians la),
      Real.cos_le_one (d / earthRadiusKm), Real.neg_one_le_cos (d / earthRadiusKm)]
  have hsc : Real.sin (radians la) ^ 2 + Real.cos (radians la) ^ 2 = 1 :=
    Real.sin_sq_add_cos_sq (radians la)
  simp only [cos_three_pi_div_two, sin_three_pi_div_two, mul_zero, add_zero, neg_one_mul,
    neg_mul, one_mul]
  rw [Real.sin_arcsin hb1 hb2]
  have ey : Real.cos (d / earthRadiusKm) -
      Real.sin (radians la) * (Real.sin (radians la) * Real.cos (d / earthRadiusKm)) =
      Real.cos (d / earthRadiusKm) * Real.cos (radians la) ^ 2 := by
    linear_combination (-(Real.cos (d / earthRadiusKm))) * hsc
  rw [ey]

/-- Away from the poles and for a sub-quarter-circle radius, the query box of
`search_repeaters_by_location` is the undegenerate one: neither fallback
fires, the latitude bounds are the two `arcsin`-reflected hops, and the
longitude bounds are `lo ± t` (in radians) for an `arctan` term
`0 < t < pi/2`.  In particular `west < east` always holds here, so the
antimeridian fallback is unreachable. -/
theorem boxBounds_eval (la lo d : ℝ)
    (hd0 : 0 < d / earthRadiusKm) (hd1 : d / earthRadiusKm < Real.pi / 2)
    (hcos : 0 < Real.cos (radians la)) :
    ∃ t : ℝ, 0 < t ∧ t < Real.pi / 2 ∧
      boxBounds la lo d =
        (degrees (Real.arcsin (Real.sin (radians la - d / earthRadiusKm))),
         degrees (Real.arcsin (Real.sin (radians la + d / earthRadiusKm))),
         degrees (radians lo - t),
         degrees (radians lo + t)) := by
  have hsinδ : 0 < Real.sin (d / earthRadiusKm) :=
    Real.sin_pos_of_pos_of_lt_pi hd0 (by nlinarith [Real.pi_pos])
  have hcosδ : 0 < Real.cos (d / earthRadiusKm) :=
    Real.cos_pos_of_mem_Ioo ⟨by nlinarith [Real.pi_pos], hd1⟩
  have hx : 0 < Real.cos (d / earthRadiusKm) * Real.cos (radians la) ^ 2 := by positivity
  have hq : 0 < Real.sin (d / earthRadiusKm) * Real.cos (radians la) /
      (Real.cos (d / earthRadiusKm) * Real.cos (radians la) ^ 2) := by positivity
  have htpos : 0 < Real.arctan (Real.sin (d / earthRadiusKm) * Real.cos (radians la) /
      (Real.cos (d / earthRadiusKm) * Real.cos (radians la) ^ 2)) := by
    have h0 := Real.arctan_strictMono hq
    rwa [Real.arctan_zero] at h0
  refine ⟨_, htpos, Real.arctan_lt_pi_div_two _, ?_⟩
  simp only [boxBounds]
  rw [inv_hav_north_fst, inv_hav_south_fst, inv_hav_east_snd, inv_hav_west_snd,
    atan2_of_pos_x _ _ hx, atan2_of_pos_x _ _ hx]
  have hno_lat : ¬ (degrees (Real.arcsin (Real.sin (radians la - d / earthRadiusKm))) >
      degrees (Real.arcsin (Real.sin (radians la + d / earthRadiusKm)))) := by
    rw [not_lt, degrees_le_degrees_iff]
    apply Real.monotone_arcsin
    nlinarith [Real.sin_add (radians la) (d / earthRadiusKm),
      Real.sin_sub (radians la) (d / earthRadiusKm)]
  have harct : Real.arctan (-(Real.sin (d / earthRadiusKm) * Real.cos (radians la)) /
      (Real.cos (d / earthRadiusKm) * Real.cos (radians la) ^ 2)) =
      -(Real.arctan (Real.sin (d / earthRadiusKm) * Real.cos (radians la) /
        (Real.cos (d / earthRadiusKm) * Real.cos (radians la) ^ 2))) := by
    rw [neg_div, Real.arctan_neg]
  rw [harct]
  have hno_lng : ¬ (degrees (radians lo +
      -(Real.arctan (Real.sin (d / earthRadiusKm) * Real.cos (radians la) /
        (Real.cos (d / earthRadiusKm) * Real.cos (radians la) ^ 2)))) >
      degrees (radians lo +
        Real.arctan (Real.sin (d / earthRadiusKm) * Real.cos (radians la) /
          (Real.cos (d / earthRadiusKm) * Real.cos (radians la) ^ 2)))) := by
    rw [not_lt, degrees_le_degrees_iff]
    linarith
  rw [if_neg hno_lat, if_neg hno_lng]
  have e1 : radians lo +
      -(Real.arctan (Real.sin (d / earthRadiusKm) * Real.cos (radians la) /
        (Real.cos (d / earthRadiusKm) * Real.cos (radians la) ^ 2))) =
      radians lo -
      Real.arctan (Real.sin (d / earthRadiusKm) * Real.cos (radians la) /
        (Real.cos (d / earthRadiusKm) * Real.cos (radians la) ^ 2)) := by ring
  rw [e1, if_neg hno_lat]
  have hno_lng2 : ¬ (degrees (radians lo -
      Real.arctan (Real.sin (d / earthRadiusKm) * Real.cos (radians la) /
        (Real.cos (d / earthRadiusKm) * Real.cos (radians la) ^ 2))) >
      degrees (radians lo +
        Real.arctan (Real.sin (d / earthRadiusKm) * Real.cos (radians la) /
          (Real.cos (d / earthRadiusKm) * Real.cos (radians la) ^ 2)))) := by
    rw [not_lt, degrees_le_degrees_iff]
    linarith
  rw [if_neg hno_lng2]

theorem delta_small {d : ℝ} (h0 : 0 < d) (h1 : d ≤ 100) :
    0 < d / earthRadiusKm ∧ d / earthRadiusKm < Real.pi / 2 := by
  have hR := earthRadiusKm_pos
  refine ⟨by positivity, ?_⟩
  have h2 : d / earthRadiusKm ≤ 100 / earthRadiusKm := by gcongr
  have h3 : (100 : ℝ) / earthRadiusKm < 3 / 2 := by norm_num [earthRadiusKm]
  have h4 : (3 : ℝ) / 2 ≤ Real.pi / 2 := by linarith [Real.pi_gt_three]
  linarith

theorem cos_radians_pos {a : ℝ} (h0 : -90 < a) (h1 : a < 90) :
    0 < Real.cos (radians a) := by
  apply Real.cos_pos_of_mem_Ioo
  unfold radians
  constructor <;> nlinarith [Real.pi_pos]

/-- Antimeridian scenario: the query at `(65.0, 179.9)` with radius 50 km
does not select the record at `(65.0, -179.95)` — the computed longitude
bounds straddle 179.9 without wrapping, so `west > east` never fires and the
record falls outside the box. -/
theorem inBox_anti_false : inBox (boxBounds 65 179.9 50) rowAnti = false := by
  obtain ⟨hd0, hd1⟩ := delta_small (by norm_num : (0:ℝ) < 50) (by norm_num)
  obtain ⟨t, ht0, ht1, hbox⟩ :=
    boxBounds_eval 65 179.9 50 hd0 hd1 (cos_radians_pos (by norm_num) (by norm_num))
  rw [hbox]
  have hwest : (-179.95 : ℝ) < degrees (radians 179.9 - t) := by
    have h1 : degrees (radians 179.9 - t) = 179.9 - degrees t := by
      rw [degrees_sub, degrees_radians]
    have h2 : degrees t < 90 := by
      have := degrees_lt_degrees_iff.mpr ht1
      rwa [degrees_pi_div_two] at this
    linarith
  have hrow : rowAnti.longitude = -179.95 := rfl
  simp only [inBox, hrow]
  rw [decide_eq_false (not_le.mpr hwest)]
  simp

/-- Pole scenario: the query at `(89.9, 10.0)` with radius 50 km does not
select the record at `(89.95, -170.0)` — the northward hop reflects off the
pole, leaving a northern bound below 89.9, so `south > north` never fires
and the record falls outside the box. -/
theorem inBox_pole_false : inBox (boxBounds 89.9 10 50) rowPole = false := by
  obtain ⟨hd0, hd1⟩ := delta_small (by norm_num : (0:ℝ) < 50) (by norm_num)
  obtain ⟨t, ht0, ht1, hbox⟩ :=
    boxBounds_eval 89.9 10 50 hd0 hd1 (cos_radians_pos (by norm_num) (by norm_num))
  rw [hbox]
  have hrefl : Real.arcsin (Real.sin (radians 89.9 + 50 / earthRadiusKm)) =
      Real.pi - (radians 89.9 + 50 / earthRadiusKm) := by
    rw [← Real.sin_pi_sub, Real.arcsin_sin]
    · unfold radians earthRadiusKm
      nlinarith [Real.pi_pos, Real.pi_gt_three]
    · unfold radians earthRadiusKm
      nlinarith [Real.pi_lt_d2]
  have hnorth : degrees (Real.arcsin (Real.sin (radians 89.9 + 50 / earthRadiusKm))) < 89.95 := by
    rw [hrefl]
    have hlt : Real.pi - (radians 89.9 + 50 / earthRadiusKm) < radians 89.95 := by
      unfold radians earthRadiusKm
      nlinarith [Real.pi_lt_d2]
    calc degrees (Real.pi - (radians 89.9 + 50 / earthRadiusKm))
        < degrees (radians 89.95) := degrees_lt_degrees_iff.mpr hlt
      _ = 89.95 := degrees_radians _
  have hrow : rowPole.latitude = 89.95 := rfl
  simp only [inBox, hrow]
  rw [decide_eq_false (not_le.mpr hnorth)]
  simp

theorem haversineKm_self (p : ℝ × ℝ) : haversineKm p p = 0 := by
  unfold haversineKm
  simp [sub_self, Real.sin_zero, Real.sqrt_zero, Real.arcsin_zero]

theorem radians_zero : radians 0 = 0 := by unfold radians; ring

theorem search_loc_anti_eval :
    search_repeaters_by_location (some [rowAnti]) 65 179.9 50 none none = some [] := by
  simp [search_repeaters_by_location, locCandidates, List.filter, inBox_anti_false]

theorem search_loc_pole_eval :
    search_repeaters_by_location (some [rowPole]) 89.9 10 50 none none = some [] := by
  simp [search_repeaters_by_location, locCandidates, List.filter, inBox_pole_false]

theorem inBox_origin_true : inBox (boxBounds 0 0 80) baseRow = true := by
  obtain ⟨hd0, hd1⟩ := delta_small (by norm_num : (0:ℝ) < 80) (by norm_num)
  obtain ⟨t, ht0, ht1, hbox⟩ :=
    boxBounds_eval 0 0 80 hd0 hd1 (cos_radians_pos (by norm_num) (by norm_num))
  rw [hbox]
  rw [radians_zero]
  have hs : Real.arcsin (Real.sin (0 - 80 / earthRadiusKm)) = 0 - 80 / earthRadiusKm :=
    Real.arcsin_sin (by linarith) (by linarith)
  have hn : Real.arcsin (Real.sin (0 + 80 / earthRadiusKm)) = 0 + 80 / earthRadiusKm :=
    Real.arcsin_sin (by linarith) (by linarith)
  rw [hs, hn]
  have hlat : baseRow.latitude = 0 := rfl
  have hlng : baseRow.longitude = 0 := rfl
  simp only [inBox, hlat, hlng, Bool.and_eq_true, decide_eq_true_eq]
  have k1 : degrees (0 - 80 / earthRadiusKm) ≤ 0 := by
    have := degrees_le_degrees_iff.mpr (show (0:ℝ) - 80 / earthRadiusKm ≤ 0 by linarith)
    rwa [degrees_zero] at this
  have k2 : (0:ℝ) ≤ degrees (0 + 80 / earthRadiusKm) := by
    have := degrees_le_degrees_iff.mpr (show (0:ℝ) ≤ 0 + 80 / earthRadiusKm by linarith)
    rwa [degrees_zero] at this
  have k3 : degrees (0 - t) ≤ 0 := by
    have := degrees_le_degrees_iff.mpr (show (0:ℝ) - t ≤ 0 by linarith)
    rwa [degrees_zero] at this
  have k4 : (0:ℝ) ≤ degrees (0 + t) := by
    have := degrees_le_degrees_iff.mpr (show (0:ℝ) ≤ 0 + t by linarith)
    rwa [degrees_zero] at this
  exact ⟨⟨⟨k1, k2⟩, k3⟩, k4⟩

theorem locPass_origin (ms : Option (List String)) (fb : Option (List (ℝ × ℝ)))
    (hm : modePass ms baseRow.mode = true) (hb : bandPass fb baseRow.frequency = true) :
    locPass (0, 0) 80 ms fb baseRow = true := by
  unfold locPass
  have hp : ((baseRow.latitude : ℝ), baseRow.longitude) = ((0:ℝ), (0:ℝ)) := rfl
  rw [hp, haversineKm_self, hm, hb]
  norm_num

theorem search_loc_origin_eval (modes : Option ModesArg) (bands : Option BandTree)
    (hm : modePass (modes.map modesList) baseRow.mode = true)
    (hb : bandPass (bands.map flattenB) baseRow.frequency = true) :
    search_repeaters_by_location (some [baseRow]) 0 0 80 modes bands =
      some [mkRep baseRow (some 0)] := by
  have hp : ((baseRow.latitude : ℝ), baseRow.longitude) = ((0:ℝ), (0:ℝ)) := rfl
  simp only [search_repeaters_by_location, locCandidates, List.filter, inBox_origin_true,
    locPass_origin _ _ hm hb, List.map, hp, haversineKm_self]
  rw [List.mergeSort_singleton]

theorem mem_locCandidates {rows : List Row} {lat lon maxd : ℝ} {modes : Option ModesArg}
    {bands : Option BandTree} {r : Repeater}
    (h : r ∈ locCandidates rows lat lon maxd modes bands) :
    ∃ row, row ∈ rows ∧ inBox (boxBounds lat lon maxd) row = true ∧
      locPass (lat, lon) maxd (modes.map modesList) (bands.map flattenB) row = true ∧
      r = mkRep row (some (haversineKm (lat, lon) (row.latitude, row.longitude))) := by
  simp only [locCandidates, List.mem_map, List.mem_filter] at h
  obtain ⟨row, ⟨⟨hmem, hbox⟩, hpass⟩, hr⟩ := h
  exact ⟨row, hmem, hbox, hpass, hr.symm⟩

/-! # Claim theorems -/

/-- C1: for every origin, radius, filter set and dataset, every record
returned by `search_repeaters_by_location` carries a distance not exceeding
`max_distance` — the exact haversine check is a hard filter, so nothing
outside the true radius survives the bounding-box prune. -/
theorem C1_distance_filter_is_hard (db : Option (List Row)) (lat lon maxd : ℝ)
    (modes : Option ModesArg) (bands : Option BandTree) (res : List Repeater) (r : Repeater)
    (hs : search_repeaters_by_location db lat lon maxd modes bands = some res)
    (hr : r ∈ res) : ∃ d, r.distance = some d ∧ d ≤ maxd := by
  cases db with
  | none => simp [search_repeaters_by_location] at hs
  | some rows =>
    simp only [search_repeaters_by_location, Option.some.injEq] at hs
    subst hs
    have hc : r ∈ locCandidates rows lat lon maxd modes bands := List.mem_mergeSort.mp hr
    obtain ⟨row, _, _, hpass, hrep⟩ := mem_locCandidates hc
    refine ⟨haversineKm (lat, lon) (row.latitude, row.longitude), ?_, ?_⟩
    · rw [hrep]; rfl
    · unfold locPass at hpass
      simp only [Bool.and_eq_true, Bool.not_eq_true', decide_eq_false_iff_not, not_lt] at hpass
      exact hpass.1.1

/-- Witness for C1 at a concrete input: a dataset of one repeater at the
origin, searched from the origin with the default radius. -/
theorem C1_witness : ∃ d, (mkRep baseRow (some 0)).distance = some d ∧ d ≤ 80 :=
  C1_distance_filter_is_hard (some [baseRow]) 0 0 80 none none
    [mkRep baseRow (some 0)] (mkRep baseRow (some 0))
    (search_loc_origin_eval none none rfl rfl)
    (List.mem_singleton.mpr rfl)

/-- C2: evaluating the code at the claim's own scenarios shows the opposite
of the claim: the search at `(65.0, 179.9)` with 50 km radius does NOT
return the record at `(65.0, -179.95)`, and the search at `(89.9, 10.0)`
with 50 km radius does NOT return the record at `(89.95, -170.0)` — both
come back empty, because `inverse_haversine` neither wraps longitudes past
±180 nor carries latitudes over a pole, so the `west > east` and
`south > north` fallback branches are unreachable and the records sit
outside the computed box. -/
theorem C2_wraparound_records_excluded :
    search_repeaters_by_location (some [rowAnti]) 65 179.9 50 none none = some [] ∧
    search_repeaters_by_location (some [rowPole]) 89.9 10 50 none none = some [] :=
  ⟨search_loc_anti_eval, search_loc_pole_eval⟩

theorem mem_csCandidates {rows : List Row} {cs : String} {origin : Option (ℝ × ℝ)}
    {modes : Option ModesArg} {bands : Option BandTree} {r : Repeater}
    (h : r ∈ csCandidates rows cs origin modes bands) :
    ∃ row, row ∈ rows ∧ likeCallsign cs row = true ∧
      (modePass (modes.map modesList) row.mode &&
        bandPass (bands.map flattenB) row.frequency) = true ∧
      r = mkRep row (origin.map (fun o => haversineKm o (row.latitude, row.longitude))) := by
  simp only [csCandidates, List.mem_map, List.mem_filter] at h
  obtain ⟨row, ⟨⟨hmem, hlike⟩, hpass⟩, hr⟩ := h
  exact ⟨row, hmem, hlike, hpass, hr.symm⟩

/-- C4: with no database file, both search operations return the distinct
"no data" value (Python `None`) — not an exception, and not an empty list:
`none` is distinguishable from `some []`.  The dynamic-typing wrapper shows
that even malformed coordinates raise nothing on this path, since the
database check comes first. -/
theorem C4_dataset_unavailable_signal :
    (∀ (lat lon maxd : ℝ) (modes : Option ModesArg) (bands : Option BandTree),
      search_repeaters_by_location none lat lon maxd modes bands = none) ∧
    (∀ (cs : String) (lat lon : Option ℝ) (modes : Option ModesArg) (bands : Option BandTree),
      search_repeaters_by_callsign none cs lat lon modes bands = none) ∧
    (∀ (lat lon : Option ℝ) (maxd : ℝ) (modes : Option ModesArg) (bands : Option BandTree),
      search_by_location_py none lat lon maxd modes bands = Except.ok none) ∧
    (none : Option (List Repeater)) ≠ some [] :=
  ⟨fun _ _ _ _ _ => rfl, fun _ _ _ _ _ => rfl, fun _ _ _ _ _ => rfl, by simp⟩

/-- C9 counterexample: the claim says a call with a latitude but no
longitude "fails fast by raising InvalidQueryError"; with the database file
absent the code instead returns the `None` signal successfully, raising
nothing (and no `InvalidQueryError` exists anywhere in the module). -/
theorem C9_counterexample :
    search_by_location_py none (some 47) none 80 none none = Except.ok none := rfl

/-- C9 (amended): there is no `InvalidQueryError` and no coordinate
validation.  With no database the call returns the unavailable signal
without error; with a database present, a missing coordinate makes the
origin's first use (`math.radians(None)` inside `inverse_haversine`) raise
an unhandled `TypeError` — after the database check and band flattening, but
before any result is produced, so no partial results escape. -/
theorem C9_missing_coordinate_behavior :
    (∀ (lat lon : Option ℝ) (maxd : ℝ) (modes : Option ModesArg) (bands : Option BandTree),
      search_by_location_py none lat lon maxd modes bands = Except.ok none) ∧
    (∀ (rows : List Row) (la : ℝ) (maxd : ℝ) (modes : Option ModesArg) (bands : Option BandTree),
      search_by_location_py (some rows) (some la) none maxd modes bands =
        Except.error PyErr.typeError) ∧
    (∀ (rows : List Row) (lo : ℝ) (maxd : ℝ) (modes : Option ModesArg) (bands : Option BandTree),
      search_by_location_py (some rows) none (some lo) maxd modes bands =
        Except.error PyErr.typeError) ∧
    (∀ (rows : List Row) (maxd : ℝ) (modes : Option ModesArg) (bands : Option BandTree),
      search_by_location_py (some rows) none none maxd modes bands =
        Except.error PyErr.typeError) :=
  ⟨fun _ _ _ _ _ => rfl, fun _ _ _ _ _ => rfl, fun _ _ _ _ _ => rfl, fun _ _ _ _ => rfl⟩

/-- C10: in the callsign search an origin is formed only when both
coordinates are present, so supplying exactly one of them raises no error
and behaves exactly like supplying neither: same results, every distance
unset, no sort. -/
theorem C10_one_sided_origin_ignored :
    (∀ (db : Option (List Row)) (cs : String) (la : ℝ) (modes : Option ModesArg)
        (bands : Option BandTree),
      search_repeaters_by_callsign db cs (some la) none modes bands =
        search_repeaters_by_callsign db cs none none modes bands) ∧
    (∀ (db : Option (List Row)) (cs : String) (lo : ℝ) (modes : Option ModesArg)
        (bands : Option BandTree),
      search_repeaters_by_callsign db cs none (some lo) modes bands =
        search_repeaters_by_callsign db cs none none modes bands) ∧
    (∀ (rows : List Row) (cs : String) (la : ℝ) (modes : Option ModesArg)
        (bands : Option BandTree) (res : List Repeater),
      search_repeaters_by_callsign (some rows) cs (some la) none modes bands = some res →
      ∀ r ∈ res, r.distance = none) := by
  refine ⟨fun db _ _ _ _ => by cases db <;> rfl, fun db _ _ _ _ => by cases db <;> rfl, ?_⟩
  intro rows cs la modes bands res hs r hr
  have hs' : csCandidates rows cs none modes bands = res := by
    simpa [search_repeaters_by_callsign] using hs
  rw [← hs'] at hr
  obtain ⟨row, _, _, _, hrep⟩ := mem_csCandidates hr
  rw [hrep]
  rfl

/-- Witness for C10's implication part at a concrete input: the empty
dataset, a latitude but no longitude. -/
theorem C10_witness : ∀ r ∈ ([] : List Repeater), r.distance = none :=
  C10_one_sided_origin_ignored.2.2 [] "" 0 none none [] rfl

/-- C8: the callsign search applies no maximum-distance cutoff.  With an
origin, every record passing the prefix/mode/band filters is returned —
whatever its haversine distance — and every result's distance is exactly the
haversine distance from the origin.  Without an origin, every result's
distance is unset and the results are a sublist of the dataset in its
natural order (no sort). -/
theorem C8_no_distance_cutoff :
    (∀ (rows : List Row) (cs : String) (la lo : ℝ) (modes : Option ModesArg)
        (bands : Option BandTree) (res : List Repeater),
      search_repeaters_by_callsign (some rows) cs (some la) (some lo) modes bands = some res →
      (∀ row ∈ rows, likeCallsign cs row = true →
        modePass (modes.map modesList) row.mode = true →
        bandPass (bands.map flattenB) row.frequency = true →
        mkRep row (some (haversineKm (la, lo) (row.latitude, row.longitude))) ∈ res) ∧
      (∀ r ∈ res, ∃ row ∈ rows,
        r = mkRep row (some (haversineKm (la, lo) (row.latitude, row.longitude))))) ∧
    (∀ (rows : List Row) (cs : String) (modes : Option ModesArg) (bands : Option BandTree)
        (res : List Repeater),
      search_repeaters_by_callsign (some rows) cs none none modes bands = some res →
      (∀ r ∈ res, r.distance = none) ∧ List.Sublist res (rows.map (fun row => mkRep row none))) := by
  constructor
  · intro rows cs la lo modes bands res hs
    have hs' : (csCandidates rows cs (some (la, lo)) modes bands).mergeSort distLe = res := by
      simpa [search_repeaters_by_callsign] using hs
    constructor
    · intro row hmem hlike hmode hband
      rw [← hs']
      apply List.mem_mergeSort.mpr
      simp only [csCandidates, List.mem_map, List.mem_filter]
      exact ⟨row, ⟨⟨hmem, hlike⟩, by rw [hmode, hband]; rfl⟩, rfl⟩
    · intro r hr
      rw [← hs'] at hr
      obtain ⟨row, hmem, _, _, hrep⟩ := mem_csCandidates (List.mem_mergeSort.mp hr)
      exact ⟨row, hmem, hrep⟩
  · intro rows cs modes bands res hs
    have hs' : csCandidates rows cs none modes bands = res := by
      simpa [search_repeaters_by_callsign] using hs
    constructor
    · intro r hr
      rw [← hs'] at hr
      obtain ⟨row, _, _, _, hrep⟩ := mem_csCandidates hr
      rw [hrep]
      rfl
    · rw [← hs']
      simp only [csCandidates]
      exact List.Sublist.map _ ((List.filter_sublist _).trans (List.filter_sublist _))

/-- Evaluation of a concrete with-origin callsign search: one record away
from the origin, no filters — it is returned annotated with its haversine
distance. -/
theorem search_cs_far_eval :
    search_repeaters_by_callsign (some [rowFar]) "" (some 0) (some 0) none none =
      some [mkRep rowFar (some (haversineKm (0, 0) (1, 2)))] := by
  have hlike : likeCallsign "" rowFar = true := by
    have h : rowFar.callsign = "KK7CMT" := rfl
    unfold likeCallsign sqlLike
    rw [h]
    decide
  have hp : ((rowFar.latitude : ℝ), rowFar.longitude) = ((1:ℝ), 2) := rfl
  simp only [search_repeaters_by_callsign, csCandidates, List.filter, hlike, Option.map,
    modePass, bandPass, Bool.and_self, List.map, hp]
  rw [List.mergeSort_singleton]

/-- Witness for C8 at concrete inputs: both the with-origin part (a record
3.5 degrees from the origin is returned with its haversine distance, however
large) and the no-origin part (empty dataset). -/
theorem C8_witness :
    (mkRep rowFar (some (haversineKm (0, 0) (1, 2))) ∈
      [mkRep rowFar (some (haversineKm (0, 0) (1, 2)))]) ∧
    (∀ r ∈ ([] : List Repeater), r.distance = none) := by
  constructor
  · exact (C8_no_distance_cutoff.1 [rowFar] "" 0 0 none none _ search_cs_far_eval).1 rowFar
      (List.mem_singleton.mpr rfl)
      (by
        have h : rowFar.callsign = "KK7CMT" := rfl
        unfold likeCallsign sqlLike
        rw [h]
        decide)
      rfl rfl
  · exact (C8_no_distance_cutoff.2 [] "" none none [] rfl).1

theorem mem_locCandidates_intro {rows : List Row} {lat lon maxd : ℝ} {modes : Option ModesArg}
    {bands : Option BandTree} {row : Row} (hmem : row ∈ rows)
    (hbox : inBox (boxBounds lat lon maxd) row = true)
    (hpass : locPass (lat, lon) maxd (modes.map modesList) (bands.map flattenB) row = true) :
    mkRep row (some (haversineKm (lat, lon) (row.latitude, row.longitude))) ∈
      locCandidates rows lat lon maxd modes bands := by
  simp only [locCandidates, List.mem_map, List.mem_filter]
  exact ⟨row, ⟨⟨hmem, hbox⟩, hpass⟩, rfl⟩

theorem mem_csCandidates_intro {rows : List Row} {cs : String} {origin : Option (ℝ × ℝ)}
    {modes : Option ModesArg} {bands : Option BandTree} {row : Row} (hmem : row ∈ rows)
    (hlike : likeCallsign cs row = true)
    (hpass : (modePass (modes.map modesList) row.mode &&
      bandPass (bands.map flattenB) row.frequency) = true) :
    mkRep row (origin.map (fun o => haversineKm o (row.latitude, row.longitude))) ∈
      csCandidates rows cs origin modes bands := by
  simp only [csCandidates, List.mem_map, List.mem_filter]
  exact ⟨row, ⟨⟨hmem, hlike⟩, hpass⟩, rfl⟩

theorem mem_search_loc {rows : List Row} {lat lon maxd : ℝ} {modes : Option ModesArg}
    {bands : Option BandTree} {res : List Repeater} {r : Repeater}
    (hs : search_repeaters_by_location (some rows) lat lon maxd modes bands = some res) :
    (r ∈ res ↔ r ∈ locCandidates rows lat lon maxd modes bands) := by
  simp only [search_repeaters_by_location, Option.some.injEq] at hs
  subst hs
  exact List.mem_mergeSort

theorem mem_search_cs {rows : List Row} {cs : String} {lat lon : Option ℝ}
    {modes : Option ModesArg} {bands : Option BandTree} {res : List Repeater} {r : Repeater}
    (hs : search_repeaters_by_callsign (some rows) cs lat lon modes bands = some res) :
    (r ∈ res ↔ r ∈ csCandidates rows cs (originOf lat lon) modes bands) := by
  rcases lat with _ | la <;> rcases lon with _ | lo <;>
    simp only [search_repeaters_by_callsign, Option.some.injEq] at hs <;> subst hs <;>
    simp [List.mem_mergeSort, originOf]

theorem locPass_bands_split (origin : ℝ × ℝ) (maxd : ℝ) (ms : Option (List String))
    (fb : List (ℝ × ℝ)) (row : Row) :
    locPass origin maxd ms (some fb) row =
      (locPass origin maxd ms none row && bandPass (some fb) row.frequency) := by
  unfold locPass
  simp only [bandPass, Bool.and_true, Bool.and_assoc]

theorem bandPass_iff (bs : List (ℝ × ℝ)) (freq : Int) :
    bandPass (some bs) freq = true ↔
      ∃ p ∈ bs, p.1 ≤ (freq : ℝ) / 1000000 ∧ (freq : ℝ) / 1000000 ≤ p.2 := by
  simp only [bandPass, List.any_eq_true, Bool.and_eq_true, decide_eq_true_eq]
  constructor
  · rintro ⟨p, hp, h1, h2⟩
    refine ⟨p, hp, ?_, ?_⟩
    · rw [le_div_iff₀ (by norm_num : (0:ℝ) < 1000000)]
      linarith
    · rw [div_le_iff₀ (by norm_num : (0:ℝ) < 1000000)]
      linarith
  · rintro ⟨p, hp, h1, h2⟩
    refine ⟨p, hp, ?_, ?_⟩
    · have := (le_div_iff₀ (show (0:ℝ) < 1000000 by norm_num)).mp h1
      linarith
    · have := (div_le_iff₀ (show (0:ℝ) < 1000000 by norm_num)).mp h2
      linarith

/-- C5: the `bands` argument is flattened (by `_flatten_bands`) into a flat
list of `(low, high)` MHz pairs, and — in both search operations — a
candidate surviving the other filters is kept if and only if its frequency,
converted to MHz, lies inside at least one pair, both endpoints included.
In particular a 146 000 000 Hz record matches `[(144, 148)]` and not
`[(420, 450)]`. -/
theorem C5_band_filter :
    (∀ (rows : List Row) (lat lon maxd : ℝ) (modes : Option ModesArg) (bands : BandTree)
        (res res' : List Repeater) (r : Repeater),
      search_repeaters_by_location (some rows) lat lon maxd modes (some bands) = some res →
      search_repeaters_by_location (some rows) lat lon maxd modes none = some res' →
      (r ∈ res ↔ r ∈ res' ∧ ∃ p ∈ flattenB bands,
        p.1 ≤ (r.frequency : ℝ) / 1000000 ∧ (r.frequency : ℝ) / 1000000 ≤ p.2)) ∧
    (∀ (rows : List Row) (cs : String) (lat lon : Option ℝ) (modes : Option ModesArg)
        (bands : BandTree) (res res' : List Repeater) (r : Repeater),
      search_repeaters_by_callsign (some rows) cs lat lon modes (some bands) = some res →
      search_repeaters_by_callsign (some rows) cs lat lon modes none = some res' →
      (r ∈ res ↔ r ∈ res' ∧ ∃ p ∈ flattenB bands,
        p.1 ≤ (r.frequency : ℝ) / 1000000 ∧ (r.frequency : ℝ) / 1000000 ≤ p.2)) ∧
    (bandPass (some (flattenB (BandTree.list [BandTree.pair 144 148]))) 146000000 = true ∧
      bandPass (some (flattenB (BandTree.list [BandTree.pair 420 450]))) 146000000 = false) := by
  refine ⟨?_, ?_, ?_⟩
  · intro rows lat lon maxd modes bands res res' r hs hs'
    rw [mem_search_loc hs, mem_search_loc hs']
    constructor
    · intro h
      obtain ⟨row, hmem, hbox, hpass, hrep⟩ := mem_locCandidates h
      rw [show (some bands).map flattenB = some (flattenB bands) from rfl,
        locPass_bands_split, Bool.and_eq_true] at hpass
      refine ⟨?_, ?_⟩
      · rw [hrep]
        exact @mem_locCandidates_intro rows lat lon maxd modes none row hmem hbox hpass.1
      · rw [hrep]
        exact (bandPass_iff _ _).mp hpass.2
    · rintro ⟨hr', hex⟩
      obtain ⟨row, hmem, hbox, hpass, hrep⟩ := mem_locCandidates hr'
      have hband : bandPass (some (flattenB bands)) row.frequency = true := by
        apply (bandPass_iff _ _).mpr
        rw [hrep] at hex
        exact hex
      have hpass2 : locPass (lat, lon) maxd (modes.map modesList)
          ((some bands).map flattenB) row = true := by
        rw [show (some bands).map flattenB = some (flattenB bands) from rfl,
          locPass_bands_split, Bool.and_eq_true]
        exact ⟨hpass, hband⟩
      rw [hrep]
      exact mem_locCandidates_intro hmem hbox hpass2
  · intro rows cs lat lon modes bands res res' r hs hs'
    rw [mem_search_cs hs, mem_search_cs hs']
    constructor
    · intro h
      obtain ⟨row, hmem, hlike, hpass, hrep⟩ := mem_csCandidates h
      rw [show (some bands).map flattenB = some (flattenB bands) from rfl,
        Bool.and_eq_true] at hpass
      refine ⟨?_, ?_⟩
      · rw [hrep]
        apply @mem_csCandidates_intro rows cs (originOf lat lon) modes none row hmem hlike
        rw [Bool.and_eq_true]
        exact ⟨hpass.1, rfl⟩
      · rw [hrep]
        exact (bandPass_iff _ _).mp hpass.2
    · rintro ⟨hr', hex⟩
      obtain ⟨row, hmem, hlike, hpass, hrep⟩ := mem_csCandidates hr'
      rw [Bool.and_eq_true] at hpass
      have hband : bandPass (some (flattenB bands)) row.frequency = true := by
        apply (bandPass_iff _ _).mpr
        rw [hrep] at hex
        exact hex
      rw [hrep]
      apply mem_csCandidates_intro hmem hlike
      rw [show (some bands).map flattenB = some (flattenB bands) from rfl, Bool.and_eq_true]
      exact ⟨hpass.1, hband⟩
  · constructor
    · rw [bandPass_iff]
      refine ⟨(144, 148), by simp [flattenB], by norm_num, by norm_num⟩
    · apply Bool.eq_false_iff.mpr
      intro hcon
      obtain ⟨p, hp, h1, h2⟩ := (bandPass_iff _ _).mp hcon
      simp only [flattenB, List.mem_append, List.mem_singleton, List.not_mem_nil,
        or_false] at hp
      rw [hp] at h1
      norm_num at h1

/-- Witness for C5's location conjunct at a concrete input: the 2m-band
record at the origin, searched with `bands=[(144, 148)]` and without. -/
theorem C5_witness :
    (mkRep baseRow (some 0) ∈ [mkRep baseRow (some 0)] ↔
      mkRep baseRow (some 0) ∈ [mkRep baseRow (some 0)] ∧
      ∃ p ∈ flattenB (BandTree.list [BandTree.pair 144 148]),
        p.1 ≤ ((mkRep baseRow (some 0)).frequency : ℝ) / 1000000 ∧
        ((mkRep baseRow (some 0)).frequency : ℝ) / 1000000 ≤ p.2) :=
  C5_band_filter.1 [baseRow] 0 0 80 none (BandTree.list [BandTree.pair 144 148])
    [mkRep baseRow (some 0)] [mkRep baseRow (some 0)] (mkRep baseRow (some 0))
    (search_loc_origin_eval none (some (BandTree.list [BandTree.pair 144 148])) rfl
      (by
        show bandPass (some (flattenB (BandTree.list [BandTree.pair 144 148]))) 146000000 = true
        rw [bandPass_iff]
        refine ⟨(144, 148), by simp [flattenB], by norm_num, by norm_num⟩))
    (search_loc_origin_eval none none rfl rfl)

theorem bool_and_rearrange (a m b : Bool) : (a && m && b) = ((a && true && b) && m) := by
  cases a <;> cases m <;> cases b <;> rfl

theorem bool_and_rearrange2 (m b : Bool) : (m && b) = ((true && b) && m) := by
  cases m <;> cases b <;> rfl

theorem locPass_modes_split (origin : ℝ × ℝ) (maxd : ℝ) (pats : List String)
    (fb : Option (List (ℝ × ℝ))) (row : Row) :
    locPass origin maxd (some pats) fb row =
      (locPass origin maxd none fb row && modePass (some pats) row.mode) := by
  unfold locPass
  exact bool_and_rearrange _ _ _

theorem modePass_iff (pats : List String) (m : String) :
    modePass (some pats) m = true ↔ ∃ p ∈ pats, reSearch p m = true := by
  simp [modePass, List.any_eq_true]

/-- C6: the `modes` argument keeps a candidate (in both search operations)
iff at least one of its patterns `re.search`-matches the record's mode
field; a bare string is treated as a one-element pattern list.  Concretely,
mode `FM` matches pattern `^FM$` but not `DMR`, and mode `DMR` matches
pattern `DMR`. -/
theorem C6_mode_filter :
    (∀ (db : Option (List Row)) (lat lon maxd : ℝ) (s : String) (bands : Option BandTree),
      search_repeaters_by_location db lat lon maxd (some (ModesArg.one s)) bands =
        search_repeaters_by_location db lat lon maxd (some (ModesArg.many [s])) bands) ∧
    (∀ (db : Option (List Row)) (cs : String) (lat lon : Option ℝ) (s : String)
        (bands : Option BandTree),
      search_repeaters_by_callsign db cs lat lon (some (ModesArg.one s)) bands =
        search_repeaters_by_callsign db cs lat lon (some (ModesArg.many [s])) bands) ∧
    (∀ (rows : List Row) (lat lon maxd : ℝ) (ms : ModesArg) (bands : Option BandTree)
        (res res' : List Repeater) (r : Repeater),
      search_repeaters_by_location (some rows) lat lon maxd (some ms) bands = some res →
      search_repeaters_by_location (some rows) lat lon maxd none bands = some res' →
      (r ∈ res ↔ r ∈ res' ∧ ∃ p ∈ modesList ms, reSearch p r.mode = true)) ∧
    (∀ (rows : List Row) (cs : String) (lat lon : Option ℝ) (ms : ModesArg)
        (bands : Option BandTree) (res res' : List Repeater) (r : Repeater),
      search_repeaters_by_callsign (some rows) cs lat lon (some ms) bands = some res →
      search_repeaters_by_callsign (some rows) cs lat lon none bands = some res' →
      (r ∈ res ↔ r ∈ res' ∧ ∃ p ∈ modesList ms, reSearch p r.mode = true)) ∧
    (reSearch "^FM$" "FM" = true ∧ reSearch "DMR" "FM" = false ∧
      reSearch "DMR" "DMR" = true) := by
  refine ⟨?_, ?_, ?_, ?_, by decide, by decide, by decide⟩
  · intro db _ _ _ _ _
    cases db <;> rfl
  · intro db _ _ _ _ _
    cases db <;> rfl
  · intro rows lat lon maxd ms bands res res' r hs hs'
    rw [mem_search_loc hs, mem_search_loc hs']
    constructor
    · intro h
      obtain ⟨row, hmem, hbox, hpass, hrep⟩ := mem_locCandidates h
      rw [show (some ms).map modesList = some (modesList ms) from rfl,
        locPass_modes_split, Bool.and_eq_true] at hpass
      exact ⟨hrep ▸ @mem_locCandidates_intro rows lat lon maxd none bands row hmem hbox hpass.1,
        hrep ▸ (modePass_iff _ _).mp hpass.2⟩
    · rintro ⟨hr', hex⟩
      obtain ⟨row, hmem, hbox, hpass, hrep⟩ := mem_locCandidates hr'
      have hmode : modePass (some (modesList ms)) row.mode = true := by
        apply (modePass_iff _ _).mpr
        rw [hrep] at hex
        exact hex
      have hpass2 : locPass (lat, lon) maxd ((some ms).map modesList)
          (bands.map flattenB) row = true := by
        rw [show (some ms).map modesList = some (modesList ms) from rfl,
          locPass_modes_split, Bool.and_eq_true]
        exact ⟨hpass, hmode⟩
      rw [hrep]
      exact mem_locCandidates_intro hmem hbox hpass2
  · intro rows cs lat lon ms bands res res' r hs hs'
    rw [mem_search_cs hs, mem_search_cs hs']
    constructor
    · intro h
      obtain ⟨row, hmem, hlike, hpass, hrep⟩ := mem_csCandidates h
      rw [show (some ms).map modesList = some (modesList ms) from rfl,
        bool_and_rearrange2, Bool.and_eq_true] at hpass
      refine ⟨?_, hrep ▸ (modePass_iff _ _).mp hpass.2⟩
      rw [hrep]
      exact @mem_csCandidates_intro rows cs (originOf lat lon) none bands row hmem hlike hpass.1
    · rintro ⟨hr', hex⟩
      obtain ⟨row, hmem, hlike, hpass, hrep⟩ := mem_csCandidates hr'
      have hmode : modePass (some (modesList ms)) row.mode = true := by
        apply (modePass_iff _ _).mpr
        rw [hrep] at hex
        exact hex
      rw [hrep]
      apply mem_csCandidates_intro hmem hlike
      rw [show (some ms).map modesList = some (modesList ms) from rfl,
        bool_and_rearrange2, Bool.and_eq_true]
      exact ⟨hpass, hmode⟩

/-- Witness for C6's location conjunct at a concrete input: the FM record at
the origin, searched with `modes="^FM$"` (a bare string) and without. -/
theorem C6_witness :
    (mkRep baseRow (some 0) ∈ [mkRep baseRow (some 0)] ↔
      mkRep baseRow (some 0) ∈ [mkRep baseRow (some 0)] ∧
      ∃ p ∈ modesList (ModesArg.one "^FM$"),
        reSearch p (mkRep baseRow (some 0)).mode = true) :=
  C6_mode_filter.2.2.1 [baseRow] 0 0 80 (ModesArg.one "^FM$") none
    [mkRep baseRow (some 0)] [mkRep baseRow (some 0)] (mkRep baseRow (some 0))
    (search_loc_origin_eval (some (ModesArg.one "^FM$")) none
      (by
        show modePass (some ["^FM$"]) "FM" = true
        decide) rfl)
    (search_loc_origin_eval none none rfl rfl)

theorem distLe_trans : ∀ a b c : Repeater, distLe a b → distLe b c → distLe a c := by
  intro a b c hab hbc
  simp only [distLe, decide_eq_true_eq] at hab hbc ⊢
  exact le_trans hab hbc

theorem distLe_total : ∀ a b : Repeater, distLe a b || distLe b a := by
  intro a b
  simp only [distLe, Bool.or_eq_true, decide_eq_true_eq]
  exact le_total _ _

theorem pairwise_dist_mergeSort (l : List Repeater) :
    (l.mergeSort distLe).Pairwise
      (fun a b => ∀ x y, a.distance = some x → b.distance = some y → x ≤ y) := by
  have hs := List.sorted_mergeSort distLe_trans distLe_total l
  refine hs.imp ?_
  intro a b h x y hx hy
  simp only [distLe, hx, hy, Option.getD_some, decide_eq_true_eq] at h
  exact h

theorem pair_stable_mergeSort {l : List Repeater} {a b : Repeater}
    (h : List.Sublist [a, b] l) (hd : a.distance.getD 0 ≤ b.distance.getD 0) :
    List.Sublist [a, b] (l.mergeSort distLe) :=
  List.pair_sublist_mergeSort distLe_trans distLe_total
    (by simp only [distLe, decide_eq_true_eq]; exact hd) h

theorem pair_sublist_filter {a b : Row} {rows : List Row} (p : Row → Bool)
    (h : List.Sublist [a, b] rows) (ha : p a = true) (hb : p b = true) :
    List.Sublist [a, b] (rows.filter p) := by
  have h2 := List.Sublist.filter p h
  simpa [List.filter, ha, hb] using h2

/-- C3: whenever results carry distances (location search always; callsign
search with an origin), the returned list is sorted non-decreasing by
distance, and equal-distance records keep their dataset order: any
equal-distance pair that survives the filters appears in the results in the
same relative order it had in the dataset (Python's `list.sort` is stable). -/
theorem C3_sorted_and_stable :
    (∀ (rows : List Row) (lat lon maxd : ℝ) (modes : Option ModesArg) (bands : Option BandTree)
        (res : List Repeater),
      search_repeaters_by_location (some rows) lat lon maxd modes bands = some res →
      (res.Pairwise (fun a b => ∀ x y, a.distance = some x → b.distance = some y → x ≤ y) ∧
       (∀ a b : Row, List.Sublist [a, b] rows →
         inBox (boxBounds lat lon maxd) a = true → inBox (boxBounds lat lon maxd) b = true →
         locPass (lat, lon) maxd (modes.map modesList) (bands.map flattenB) a = true →
         locPass (lat, lon) maxd (modes.map modesList) (bands.map flattenB) b = true →
         haversineKm (lat, lon) (a.latitude, a.longitude) =
           haversineKm (lat, lon) (b.latitude, b.longitude) →
         List.Sublist
           [mkRep a (some (haversineKm (lat, lon) (a.latitude, a.longitude))),
            mkRep b (some (haversineKm (lat, lon) (b.latitude, b.longitude)))] res))) ∧
    (∀ (rows : List Row) (cs : String) (la lo : ℝ) (modes : Option ModesArg)
        (bands : Option BandTree) (res : List Repeater),
      search_repeaters_by_callsign (some rows) cs (some la) (some lo) modes bands = some res →
      (res.Pairwise (fun a b => ∀ x y, a.distance = some x → b.distance = some y → x ≤ y) ∧
       (∀ a b : Row, List.Sublist [a, b] rows →
         likeCallsign cs a = true → likeCallsign cs b = true →
         (modePass (modes.map modesList) a.mode &&
           bandPass (bands.map flattenB) a.frequency) = true →
         (modePass (modes.map modesList) b.mode &&
           bandPass (bands.map flattenB) b.frequency) = true →
         haversineKm (la, lo) (a.latitude, a.longitude) =
           haversineKm (la, lo) (b.latitude, b.longitude) →
         List.Sublist
           [mkRep a (some (haversineKm (la, lo) (a.latitude, a.longitude))),
            mkRep b (some (haversineKm (la, lo) (b.latitude, b.longitude)))] res))) := by
  constructor
  · intro rows lat lon maxd modes bands res hs
    have hres : (locCandidates rows lat lon maxd modes bands).mergeSort distLe = res := by
      simpa [search_repeaters_by_location] using hs
    constructor
    · rw [← hres]
      exact pairwise_dist_mergeSort _
    · intro a b hab hina hinb hpa hpb hdeq
      rw [← hres]
      refine pair_stable_mergeSort ?_ ?_
      · have h1 := pair_sublist_filter (inBox (boxBounds lat lon maxd)) hab hina hinb
        have h2 := pair_sublist_filter
          (locPass (lat, lon) maxd (modes.map modesList) (bands.map flattenB)) h1 hpa hpb
        have h3 := List.Sublist.map
          (fun r => mkRep r (some (haversineKm (lat, lon) (r.latitude, r.longitude)))) h2
        simpa [locCandidates] using h3
      · simp only [mkRep, Option.getD_some]
        exact le_of_eq hdeq
  · intro rows cs la lo modes bands res hs
    have hres : (csCandidates rows cs (some (la, lo)) modes bands).mergeSort distLe = res := by
      simpa [search_repeaters_by_callsign] using hs
    constructor
    · rw [← hres]
      exact pairwise_dist_mergeSort _
    · intro a b hab hla hlb hpa hpb hdeq
      rw [← hres]
      refine pair_stable_mergeSort ?_ ?_
      · have h1 := pair_sublist_filter (likeCallsign cs) hab hla hlb
        have h2 := pair_sublist_filter
          (fun r => modePass (modes.map modesList) r.mode &&
            bandPass (bands.map flattenB) r.frequency) h1 hpa hpb
        have h3 := List.Sublist.map
          (fun r => mkRep r ((some (la, lo)).map
            (fun o => haversineKm o (r.latitude, r.longitude)))) h2
        simpa [csCandidates] using h3
      · simp only [mkRep, Option.getD_some]
        exact le_of_eq hdeq

/-- Witness for C3 at a concrete input: the single-record search from the
origin is returned sorted (a one-element list is vacuously sorted). -/
theorem C3_witness :
    ([mkRep baseRow (some 0)] : List Repeater).Pairwise
      (fun a b => ∀ x y, a.distance = some x → b.distance = some y → x ≤ y) :=
  (C3_sorted_and_stable.1 [baseRow] 0 0 80 none none [mkRep baseRow (some 0)]
    (search_loc_origin_eval none none rfl rfl)).1

theorem any_tailsOf_nil_match (s : List Char) :
    (tailsOf s).any (fun t => likeMatch [] t) = true := by
  induction s with
  | nil => rfl
  | cons c s ih => simp only [tailsOf, List.any_cons, ih, Bool.or_true]

theorem likeMatch_pct_nil (s : List Char) : likeMatch ['%'] s = true := by
  unfold likeMatch
  rw [if_pos rfl]
  exact any_tailsOf_nil_match s

theorem likeMatch_cons_of_not_wild {p : Char} (hp1 : p ≠ '%') (hp2 : p ≠ '_')
    (ps s : List Char) :
    likeMatch (p :: ps) s =
      (match s with
       | [] => false
       | c :: s' => (lowerAscii p == lowerAscii c) && likeMatch ps s') := by
  simp only [likeMatch]
  rw [if_neg hp1, if_neg hp2]

/-- For a wildcard-free pattern `p`, `LIKE` with pattern `p ++ "%"` is
exactly a case-insensitive literal prefix test. -/
theorem likeMatch_wildfree (p : List Char) (hp : ∀ c ∈ p, c ≠ '%' ∧ c ≠ '_')
    (s : List Char) :
    likeMatch (p ++ ['%']) s =
      ((s.map lowerAscii).take p.length == p.map lowerAscii) := by
  induction p generalizing s with
  | nil =>
    simp only [List.nil_append, List.map_nil, List.length_nil, List.take_zero]
    rw [likeMatch_pct_nil]
    rfl
  | cons c p ih =>
    have hc := hp c (List.mem_cons_self c p)
    have hp' : ∀ d ∈ p, d ≠ '%' ∧ d ≠ '_' := fun d hd => hp d (List.mem_cons_of_mem c hd)
    rw [List.cons_append, likeMatch_cons_of_not_wild hc.1 hc.2]
    cases s with
    | nil => rfl
    | cons d s' =>
      simp only [List.map_cons, List.length_cons, List.take_succ_cons]
      rw [ih hp' s']
      rw [show ((lowerAscii d :: (s'.map lowerAscii).take p.length) ==
          (lowerAscii c :: p.map lowerAscii)) =
          ((lowerAscii d == lowerAscii c) &&
            ((s'.map lowerAscii).take p.length == p.map lowerAscii)) from rfl]
      rw [show (lowerAscii c == lowerAscii d) = (lowerAscii d == lowerAscii c) from Bool.beq_comm]

/-- C7 counterexample: the prefix `K%` contains a `LIKE` wildcard, so the
query selects the record with callsign `KAB` even though `KAB` does not
start with `K%` under case-insensitive literal prefix matching — the claim's
"no regex or wildcard interpretation of the prefix" fails. -/
theorem C7_counterexample :
    search_repeaters_by_callsign (some [rowKAB]) "K%" none none none none =
      some [mkRep rowKAB none] ∧ specPrefixMatchCI "K%" "KAB" = false := by
  constructor
  · have hlike : likeCallsign "K%" rowKAB = true := by
      have h : rowKAB.callsign = "KAB" := rfl
      unfold likeCallsign sqlLike
      rw [h]
      decide
    simp only [search_repeaters_by_callsign, csCandidates, List.filter, hlike, modePass,
      bandPass, List.map, Option.map]
  · decide

/-- C7 (amended): the callsign selection uses SQLite `LIKE` with pattern
`prefix || '%'`, so `%` and `_` inside the prefix act as wildcards; for a
prefix free of `%` and `_` the selection is exactly case-insensitive
(ASCII) literal prefix matching, and every returned record's callsign
matches the `LIKE` pattern.  The claim's concrete examples hold. -/
theorem C7_prefix_like_semantics :
    (∀ (pfx s : String), (∀ c ∈ pfx.data, c ≠ '%' ∧ c ≠ '_') →
      sqlLike (pfx ++ "%") s = specPrefixMatchCI pfx s) ∧
    (∀ (rows : List Row) (cs : String) (lat lon : Option ℝ) (modes : Option ModesArg)
        (bands : Option BandTree) (res : List Repeater) (r : Repeater),
      search_repeaters_by_callsign (some rows) cs lat lon modes bands = some res →
      r ∈ res → sqlLike (cs ++ "%") r.callsign = true) ∧
    (sqlLike ("KK7" ++ "%") "KK7CMT" = true ∧ sqlLike ("KK7" ++ "%") "KK7XYZ" = true ∧
      sqlLike ("KK7" ++ "%") "K7ABC" = false ∧ sqlLike ("kk7" ++ "%") "KK7CMT" = true ∧
      specPrefixMatchCI "KK7" "KK7CMT" = true ∧ specPrefixMatchCI "kk7" "KK7CMT" = true ∧
      specPrefixMatchCI "KK7" "K7ABC" = false) := by
  refine ⟨?_, ?_, by decide, by decide, by decide, by decide, by decide, by decide, by decide⟩
  · intro pfx s h
    unfold sqlLike specPrefixMatchCI
    rw [String.data_append]
    exact likeMatch_wildfree pfx.data h s.data
  · intro rows cs lat lon modes bands res r hs hr
    obtain ⟨row, _, hlike, _, hrep⟩ := mem_csCandidates ((mem_search_cs hs).mp hr)
    rw [hrep]
    exact hlike

/-- Witness for C7's amended equivalence at a concrete input. -/
theorem C7_witness :
    sqlLike ("KK7" ++ "%") "KK7CMT" = specPrefixMatchCI "KK7" "KK7CMT" :=
  C7_prefix_like_semantics.1 "KK7" "KK7CMT" (by decide)

end Aprs
